import Mathlib

/-
  Verification development for the pg_cuckoo PostgreSQL extension
  (cuckoo-filter index access method).

  Shallow embedding of the core data model and operations:
    - fingerprint computation (src/ckutils.cpp, computeFingerprint)
    - page layout and tuple append (cuckoo.h, CuckooPageAddItem)
    - equality bitmap scan (src/ckscan.cpp, ckgetbitmap)
    - bulk delete / compaction (src/ckvacuum.cpp, ckbulkdelete)
    - single tuple insert (ckinsert.cpp, ckinsert)
    - cost model false positive rate (ckcost.cpp, calculateFalsePositiveRate)

  Machine integers are modelled as Nat with explicit reduction modulo
  2^32 (uint32) or 2^64 (size_t) at the operations where the C code can
  overflow or wrap.  Datums, item pointers (row locators) and per-column
  hash functions are opaque and modelled as Nat and Nat-valued functions.
-/

/-! Constants fixed by the source and the PostgreSQL page layout
    (BLCKSZ = 8192, MAXALIGN = 8, SizeOfPageHeaderData = 24,
    sizeof(CuckooPageOpaqueData) = 8, sizeof(CuckooTuple) = 12). -/

def BLCKSZ : Nat := 8192

/-- MAXALIGN(SizeOfPageHeaderData): byte offset of PageGetContents. -/
def pageContentsOffset : Nat := 24

/-- MAXALIGN(sizeof(CuckooPageOpaqueData)): trailing special space. -/
def pageOpaqueSize : Nat := 8

/-- sizeof(CuckooTuple): ItemPointerData (6 bytes, 2-aligned) padded to 8,
    then a 4-byte fingerprint. -/
def sizeOfCuckooTuple : Nat := 12

def UINT32MOD : Nat := 4294967296

def UINT64MOD : Nat := 18446744073709551616

/-- Modulus of the OffsetNumber (uint16) field maxoff. -/
def OFFSETMOD : Nat := 65536

def CUCKOO_META : Nat := 1

def CUCKOO_DELETED : Nat := 2

def CUCKOO_MAGIC_NUMBER : Nat := 0xC0C000CF

def InvalidBlockNumber : Nat := 4294967295

/-- Capacity of the metapage free-block array:
    MAXALIGN_DOWN(8192 - 24 - 8 - MAXALIGN(2*2 + 4 + 16)) / 4 = 8136 / 4. -/
def CuckooMetaBlockN : Nat := 2034

def DEFAULT_BITS_PER_TAG : Nat := 12

def DEFAULT_TAGS_PER_BUCKET : Nat := 4

def DEFAULT_MAX_KICKS : Nat := 500

/-! Data model. -/

/-- CuckooTuple: a row locator (ItemPointerData, opaque) plus a
    32-bit fingerprint. -/
structure CuckooTuple where
  heapPtr : Nat
  fingerprint : Nat
deriving DecidableEq, Repr

/-- CuckooOptions: the immutable per-index option record
    (the varlena length header is omitted as pure plumbing). -/
structure CuckooOptions where
  bitsPerTag : Nat
  tagsPerBucket : Nat
  maxKicks : Nat
deriving DecidableEq, Repr

/-- A cuckoo data page: the dense tuple array (offsets 1..maxoff, where
    maxoff = tuples.length), page flags, pd_lower, and the PageIsNew
    predicate of an all-zero page. -/
structure CuckooPage where
  isNew : Bool
  flags : Nat
  tuples : List CuckooTuple
  pdLower : Nat
deriving DecidableEq, Repr

/-- CuckooState as set up by initCuckooState: the number of indexed
    columns, one hash function per column (the collation argument is
    folded into the function, as it is resolved once per operation),
    the option record, and the tag mask. -/
structure CuckooState where
  nColumns : Nat
  hashFn : Nat → Nat → Nat
  opts : CuckooOptions
  tagMask : Nat

/-- The metapage contents (CuckooMetaPageData).  notFullPage is the raw
    fixed-size array, modelled as a total function from index to block
    number; only indices in [nStart, nEnd) are ever read. -/
structure MetaPage where
  magicNumber : Nat
  nStart : Nat
  nEnd : Nat
  opts : CuckooOptions
  notFullPage : Nat → Nat

/-- The whole on-disk index: the metapage (block 0) and the data pages
    (block i+1 is pages[i]). -/
structure IndexState where
  meta : MetaPage
  pages : List CuckooPage

/-- One scan key: SK_ISNULL flag, 1-based attribute number, argument. -/
structure ScanKey where
  isNull : Bool
  attno : Nat
  argument : Nat
deriving DecidableEq, Repr

/-! Page predicates and layout arithmetic. -/

/-- CuckooPageIsDeleted: flags check against CUCKOO_DELETED. -/
def CuckooPageIsDeleted (p : CuckooPage) : Bool :=
  p.flags &&& CUCKOO_DELETED != 0

/-- CuckooPageIsMeta: flags check against CUCKOO_META. -/
def CuckooPageIsMeta (p : CuckooPage) : Bool :=
  p.flags &&& CUCKOO_META != 0

/-- CuckooPageGetFreeSpace: BLCKSZ - MAXALIGN(SizeOfPageHeaderData)
    - maxoff * sizeOfCuckooTuple - MAXALIGN(sizeof(CuckooPageOpaqueData)),
    computed in size_t arithmetic (wraps modulo 2^64 if maxoff exceeds
    the page capacity); maxoff itself is a uint16 field. -/
def CuckooPageGetFreeSpace (p : CuckooPage) : Nat :=
  (BLCKSZ + UINT64MOD - pageContentsOffset - pageOpaqueSize -
    sizeOfCuckooTuple * (p.tuples.length % OFFSETMOD)) % UINT64MOD

/-- CuckooInitPage: PageInit zeroes the page (so it is no longer "new"),
    sets pd_lower to the start of the contents area, installs the given
    flags and maxoff = 0. -/
def CuckooInitPage (flags : Nat) : CuckooPage :=
  { isNew := false, flags := flags, tuples := [], pdLower := pageContentsOffset }

/-! Fingerprint computation (src/ckutils.cpp lines 213-235). -/

/-- One round of the mixing loop in computeFingerprint: the running hash
    is XORed with the (DatumGetInt32-truncated) column hash, multiplied
    by the MurmurHash2 constant in uint32 arithmetic, and avalanched
    with a right shift by 15. -/
def mixRound (hash colHash : Nat) : Nat :=
  let h1 := hash ^^^ (colHash % UINT32MOD)
  let h2 := (h1 * 0x5bd1e995) % UINT32MOD
  h2 ^^^ (h2 >>> 15)

/-- The accumulator loop of computeFingerprint: fold over the columns in
    column order, skipping null columns. -/
def computeHash (st : CuckooState) (values : Nat → Nat) (isnull : Nat → Bool) : Nat :=
  (List.range st.nColumns).foldl
    (fun h i => if isnull i then h else mixRound h (st.hashFn i (values i))) 0

/-- computeFingerprint: mask the accumulator with state->tagMask and
    force a zero result to 1. -/
def computeFingerprint (st : CuckooState) (values : Nat → Nat) (isnull : Nat → Bool) : Nat :=
  let fingerprint := computeHash st values isnull &&& st.tagMask
  if fingerprint = 0 then 1 else fingerprint

/-- CuckooFormTuple: pair the caller-supplied row locator with the
    computed fingerprint. -/
def CuckooFormTuple (st : CuckooState) (iptr : Nat) (values : Nat → Nat)
    (isnull : Nat → Bool) : CuckooTuple :=
  { heapPtr := iptr, fingerprint := computeFingerprint st values isnull }

/-- The tagMask assignment of initCuckooState:
    state->tagMask = (1U << state->opts.bitsPerTag) - 1. -/
def initTagMask (bitsPerTag : Nat) : Nat :=
  (1 <<< bitsPerTag) - 1

/-! Tuple append (src/ckutils.cpp lines 264-289). -/

/-- CuckooPageAddItem: if the free space is below one tuple size, return
    false and leave the page untouched; otherwise write the tuple at
    offset maxoff + 1, increment maxoff, and move pd_lower to the end of
    the (new) last tuple. -/
def CuckooPageAddItem (p : CuckooPage) (tuple : CuckooTuple) : Bool × CuckooPage :=
  if CuckooPageGetFreeSpace p < sizeOfCuckooTuple then
    (false, p)
  else
    (true,
      { p with
        tuples := p.tuples ++ [tuple]
        pdLower := pageContentsOffset + sizeOfCuckooTuple * (p.tuples.length + 1) })

/-! Equality bitmap scan (src/ckscan.cpp lines 89-182).  A fresh scan has
    fingerprintValid = false, so ckgetbitmap first builds the values /
    isnull arrays from the scan keys (all columns initialized as null,
    then each key fills its attribute), returning zero matches at once
    if any key carries SK_ISNULL; then it computes the search
    fingerprint and walks every page, skipping new and deleted pages,
    emitting the row locator of every tuple whose stored fingerprint
    equals the search fingerprint.  The bitmap is modelled as the list
    of emitted row locators; ntids is accumulated alongside. -/

/-- A pointwise function update, used for the values[attno] / isnull[attno]
    array assignments of the key loop. -/
def updateAt {A : Type} (f : Nat → A) (i : Nat) (v : A) : Nat → A :=
  fun j => if j = i then v else f j

/-- The scan-key loop of ckgetbitmap: walk the keys in order; a null key
    aborts with no matches, a non-null key stores its argument at
    attno - 1 and marks the column non-null. -/
def processKeys : List ScanKey → (Nat → Nat) → (Nat → Bool) →
    Option ((Nat → Nat) × (Nat → Bool))
  | [], values, isnull => some (values, isnull)
  | k :: rest, values, isnull =>
    if k.isNull then none
    else processKeys rest (updateAt values (k.attno - 1) k.argument)
      (updateAt isnull (k.attno - 1) false)

/-- The page walk of ckgetbitmap: skip new and deleted pages, and on the
    others emit the row locator of every fingerprint match, counting
    each emission. -/
def scanPages (fp : Nat) : List CuckooPage → List Nat × Nat
  | [] => ([], 0)
  | p :: rest =>
    let tids :=
      if p.isNew || CuckooPageIsDeleted p then []
      else (p.tuples.filter fun t => t.fingerprint == fp).map fun t => t.heapPtr
    let r := scanPages fp rest
    (tids ++ r.1, tids.length + r.2)

/-- ckgetbitmap for a fresh scan: returns the emitted row locators and
    the returned ntids total. -/
def ckgetbitmap (st : CuckooState) (keys : List ScanKey) (pages : List CuckooPage) :
    List Nat × Nat :=
  match processKeys keys (fun _ => 0) (fun _ => true) with
  | none => ([], 0)
  | some vn =>
    let fp := computeFingerprint st vn.1 vn.2
    scanPages fp pages

/-- The scan keys of an equality scan that supplies exactly the non-null
    columns of the given values (attribute numbers are 1-based). -/
def keysFor (nColumns : Nat) (values : Nat → Nat) (isnull : Nat → Bool) : List ScanKey :=
  (List.range nColumns).filterMap fun i =>
    if isnull i then none else some { isNull := false, attno := i + 1, argument := values i }

/-! Bulk delete (src/ckvacuum.cpp lines 32-153). -/

/-- The compaction loop of ckbulkdelete on one page: tuples reported
    dead by the callback are dropped (counted in tuples_removed), live
    tuples are compacted toward the front in order. -/
def vacuumScan (cb : Nat → Bool) : List CuckooTuple → List CuckooTuple × Nat
  | [] => ([], 0)
  | t :: rest =>
    let r := vacuumScan cb rest
    if cb t.heapPtr then (r.1, r.2 + 1) else (t :: r.1, r.2)

/-- The per-page body of the ckbulkdelete loop: new and deleted pages
    are skipped; otherwise the page is compacted; if nothing was
    removed the generic-xlog mutation is aborted and the page is left
    unchanged; if the page became empty it is flagged deleted; on
    commit pd_lower is moved to the end of the surviving tuples.
    Returns the resulting page and the number of tuples removed. -/
def ckVacuumPage (cb : Nat → Bool) (p : CuckooPage) : CuckooPage × Nat :=
  if p.isNew || CuckooPageIsDeleted p then (p, 0)
  else
    let r := vacuumScan cb p.tuples
    if r.2 = 0 then (p, 0)
    else
      ({ isNew := p.isNew
         flags := if r.1.length = 0 then p.flags ||| CUCKOO_DELETED else p.flags
         tuples := r.1
         pdLower := pageContentsOffset + sizeOfCuckooTuple * r.1.length }, r.2)

/-- The full page walk of ckbulkdelete, starting at block number blkno
    and carrying the notFullPage accumulator: every non-skipped page
    that still holds tuples and has at least one tuple of free space is
    recorded, up to CuckooMetaBlockN entries.  Returns the new pages,
    the total number of tuples removed, and the recorded block list. -/
def vacuumWalk (cb : Nat → Bool) :
    List CuckooPage → Nat → List Nat → List CuckooPage × Nat × List Nat
  | [], _, acc => ([], 0, acc)
  | p :: rest, blkno, acc =>
    if p.isNew || CuckooPageIsDeleted p then
      let r := vacuumWalk cb rest (blkno + 1) acc
      (p :: r.1, r.2)
    else
      let pr := ckVacuumPage cb p
      let acc' :=
        if pr.1.tuples.length ≠ 0 ∧
            sizeOfCuckooTuple ≤ CuckooPageGetFreeSpace pr.1 ∧
            acc.length < CuckooMetaBlockN then
          acc ++ [blkno]
        else acc
      let r := vacuumWalk cb rest (blkno + 1) acc'
      (pr.1 :: r.1, pr.2 + r.2.1, r.2.2)

/-- ckbulkdelete: vacuum every data page (block numbers start at
    CUCKOO_HEAD_BLKNO = 1), then overwrite the metapage free list with
    the recorded pages, setting nStart = 0 and nEnd to their number
    (the memcpy overwrites only that prefix of the array).  Returns the
    new index state and stats->tuples_removed. -/
def ckbulkdeleteStep (cb : Nat → Bool) (s : IndexState) : IndexState × Nat :=
  let r := vacuumWalk cb s.pages 1 []
  ({ meta :=
      { s.meta with
        nStart := 0
        nEnd := r.2.2.length
        notFullPage := fun i => if i < r.2.2.length then r.2.2.getD i 0 else s.meta.notFullPage i }
     pages := r.1 }, r.2.1)

/-! Insert (ckinsert.cpp lines 182-316).  The embedding gives the
    single-threaded semantics of one ckinsert call.  CuckooNewBuffer
    first consults the free space map, but within sequences of ckinsert
    and ckbulkdelete operations the FSM is never populated
    (RecordFreeIndexPage is called only from ckvacuumcleanup), so
    allocation always extends the relation with a fresh page. -/

/-- An untouched all-zero page (PageIsNew holds). -/
def zeroPage : CuckooPage :=
  { isNew := true, flags := 0, tuples := [], pdLower := 0 }

/-- Read a data page by block number (block i+1 is pages[i]); an
    out-of-range read yields an untouched all-zero page. -/
def pageAt (s : IndexState) (blkno : Nat) : CuckooPage :=
  s.pages.getD (blkno - 1) zeroPage

/-- Write back a data page by block number. -/
def setPageAt (s : IndexState) (blkno : Nat) (p : CuckooPage) : IndexState :=
  { s with pages := s.pages.set (blkno - 1) p }

/-- The "handle recently deleted pages" step of ckinsert: a new or
    deleted candidate page is re-initialized before the append. -/
def reinitIfNeeded (p : CuckooPage) : CuckooPage :=
  if p.isNew || CuckooPageIsDeleted p then CuckooInitPage 0 else p

/-- The new-page path of ckinsert: extend the relation, initialize the
    page, append the tuple (an empty page always accepts it), and reset
    the free-list ring buffer to contain exactly the new page. -/
def insertNewPagePath (tup : CuckooTuple) (s : IndexState) : IndexState :=
  let blkno := s.pages.length + 1
  let r := CuckooPageAddItem (CuckooInitPage 0) tup
  { meta :=
      { s.meta with
        nStart := 0
        nEnd := 1
        notFullPage := fun i => if i = 0 then blkno else s.meta.notFullPage i }
    pages := s.pages ++ [r.2] }

/-- The slow-path loop of ckinsert, with the number of remaining
    ring-buffer entries (nEnd - n, which bounds the walk) made an
    explicit structural argument: walk the entries from position n; on
    a successful append persist n as the new nStart and commit; on
    failure abort the page mutation and advance; when the entries are
    exhausted fall through to the new-page path. -/
def insertLoopGo (tup : CuckooTuple) (s : IndexState) : Nat → Nat → IndexState
  | 0, _ => insertNewPagePath tup s
  | fuel + 1, n =>
    if n < s.meta.nEnd then
      let blkno := s.meta.notFullPage n
      let p1 := reinitIfNeeded (pageAt s blkno)
      let r := CuckooPageAddItem p1 tup
      if r.1 then
        { meta := { s.meta with nStart := n }, pages := (setPageAt s blkno r.2).pages }
      else insertLoopGo tup s fuel (n + 1)
    else insertNewPagePath tup s

/-- The slow-path loop entered at position n. -/
def insertLoop (tup : CuckooTuple) (s : IndexState) (n : Nat) : IndexState :=
  insertLoopGo tup s (s.meta.nEnd - n) n

/-- The slow path of ckinsert: start from nStart, skipping the first
    entry when it is the block already tried by the fast path. -/
def insertSlow (tup : CuckooTuple) (s : IndexState) (blkno : Nat) : IndexState :=
  let n :=
    if s.meta.nStart < s.meta.nEnd ∧ blkno = s.meta.notFullPage s.meta.nStart then
      s.meta.nStart + 1
    else s.meta.nStart
  insertLoop tup s n

/-- ckinsert: form the tuple from the column values; if the ring buffer
    is non-empty try the first entry's page under the fast path (the
    metapage is only read); on fast-path success commit the page alone;
    otherwise fall into the slow path. -/
def ckinsertStep (st : CuckooState) (values : Nat → Nat) (isnull : Nat → Bool)
    (iptr : Nat) (s : IndexState) : IndexState :=
  let tup := CuckooFormTuple st iptr values isnull
  if s.meta.nStart < s.meta.nEnd then
    let blkno := s.meta.notFullPage s.meta.nStart
    let r := CuckooPageAddItem (reinitIfNeeded (pageAt s blkno)) tup
    if r.1 then setPageAt s blkno r.2
    else insertSlow tup s blkno
  else insertSlow tup s InvalidBlockNumber

/-- The index produced by building over an empty table:
    CuckooFillMetapage zeroes the metadata, installs the magic number
    and the option record, and no data page is flushed. -/
def initialIndexState (opts : CuckooOptions) : IndexState :=
  { meta :=
      { magicNumber := CUCKOO_MAGIC_NUMBER
        nStart := 0
        nEnd := 0
        opts := opts
        notFullPage := fun _ => 0 }
    pages := [] }

/-- States of one index (fixed CuckooState, hence fixed options and hash
    functions) reachable from a freshly built empty index by any
    sequence of ckinsert and ckbulkdelete operations. -/
inductive Reachable (st : CuckooState) : IndexState → Prop where
  | init : Reachable st (initialIndexState st.opts)
  | insert (values : Nat → Nat) (isnull : Nat → Bool) (iptr : Nat) {s : IndexState} :
      Reachable st s → Reachable st (ckinsertStep st values isnull iptr s)
  | bulkdelete (cb : Nat → Bool) {s : IndexState} :
      Reachable st s → Reachable st (ckbulkdeleteStep cb s).1

/-- The free-list invariant of claim C6: every ring-buffer entry between
    nStart and nEnd references a page with at least one tuple of free
    space. -/
def FreeListInv (s : IndexState) : Prop :=
  ∀ i, s.meta.nStart ≤ i → i < s.meta.nEnd →
    sizeOfCuckooTuple ≤ CuckooPageGetFreeSpace (pageAt s (s.meta.notFullPage i))

/-! Cost model (ckcost.cpp lines 345-362).  The doubles of the source
    are modelled as exact rationals: every intermediate value
    (2 * tagsPerBucket, the power-of-two denominator, their quotient)
    is a dyadic rational exactly representable in IEEE double for the
    validated option ranges, and no representable quotient separates
    the decimal clamp constant from its double rounding. -/

/-- calculateFalsePositiveRate: fpr = (2 * tagsPerBucket) / 2^bitsPerTag,
    clamped above by 1.0 and below by 0.0001. -/
def calculateFalsePositiveRate (bitsPerTag tagsPerBucket : Nat) : ℚ :=
  let denominator : ℚ := (2 : ℚ) ^ bitsPerTag
  let fpr : ℚ := (2 * tagsPerBucket) / denominator
  let fpr1 : ℚ := if 1 < fpr then 1 else fpr
  if fpr1 < 1 / 10000 then 1 / 10000 else fpr1

/-! Definitions written from the specification text, for comparison
    against the embedded source functions. -/

/-- The fingerprint value as worded by claim C2: the accumulator is the
    XOR of each non-null column hash followed by a multiply by
    0x5bd1e995 and an XOR with the right shift by 15, one round per
    column in column order; the accumulator is masked to the low
    bitsPerTag bits via tagMask = (1 <<< bitsPerTag) - 1, and a zero
    result is forced to 1. -/
def fingerprintSpecC2 (st : CuckooState) (values : Nat → Nat) (isnull : Nat → Bool) : Nat :=
  let acc := (List.range st.nColumns).foldl
    (fun h i =>
      if isnull i then h
      else
        let x := h ^^^ (st.hashFn i (values i) % UINT32MOD)
        let y := (x * 0x5bd1e995) % UINT32MOD
        y ^^^ (y >>> 15)) 0
  let fp := acc &&& ((1 <<< st.opts.bitsPerTag) - 1)
  if fp = 0 then 1 else fp

/-- The false-positive rate as worded by claim C9:
    (2 * tagsPerBucket) / 2 ^ bitsPerTag clamped to [0.0001, 1.0]. -/
def fprClampSpec (bitsPerTag tagsPerBucket : Nat) : ℚ :=
  max (1 / 10000) (min 1 ((2 * tagsPerBucket) / (2 : ℚ) ^ bitsPerTag))

/-- The result set of a keyless scan as worded by claim C10: the row
    locators of precisely the stored tuples (on live pages) whose
    fingerprint is 1. -/
def keylessScanSpec (pages : List CuckooPage) : List Nat :=
  ((pages.filter fun p => !p.isNew && !CuckooPageIsDeleted p).map
    fun p => (p.tuples.filter fun t => t.fingerprint == 1).map fun t => t.heapPtr).flatten

/-! Concrete instances used by witnesses and by the claim C6
    counterexample trace. -/

/-- A one-column index state whose column hash is the identity. -/
def stW : CuckooState :=
  { nColumns := 1, hashFn := fun _ d => d
    opts := ⟨DEFAULT_BITS_PER_TAG, DEFAULT_TAGS_PER_BUCKET, DEFAULT_MAX_KICKS⟩
    tagMask := 4095 }

/-- A one-column index state inserting rows whose indexed column is
    null (its hash function is never consulted). -/
def st0 : CuckooState :=
  { nColumns := 1, hashFn := fun _ _ => 0
    opts := ⟨DEFAULT_BITS_PER_TAG, DEFAULT_TAGS_PER_BUCKET, DEFAULT_MAX_KICKS⟩
    tagMask := 4095 }

/-- The tuple formed for an all-null row at heap position 0: its
    fingerprint is 1. -/
def tup0 : CuckooTuple := CuckooFormTuple st0 0 (fun _ => 0) (fun _ => true)

/-- The index state after k identical all-null-row inserts into a
    freshly built empty index. -/
def insertN : Nat → IndexState
  | 0 => initialIndexState st0.opts
  | k + 1 => ckinsertStep st0 (fun _ => 0) (fun _ => true) 0 (insertN k)

/-- The metapage after the first insert allocated data page 1. -/
def meta1 : MetaPage :=
  { magicNumber := CUCKOO_MAGIC_NUMBER
    nStart := 0
    nEnd := 1
    opts := st0.opts
    notFullPage := fun i => if i = 0 then 1 else 0 }

/-- A data page holding k copies of the all-null tuple. -/
def pageRep (k : Nat) : CuckooPage :=
  { isNew := false, flags := 0, tuples := List.replicate k tup0
    pdLower := pageContentsOffset + sizeOfCuckooTuple * k }

/-- The reachable state that refutes claim C6: after 680 inserts the
    single data page is full (a page holds 8160 / 12 = 680 tuples) and
    the free list still references it. -/
def badState680 : IndexState := insertN 680

/-- A live page holding the tuple formed for value 5 at heap position 7
    under the identity-hash state. -/
def pageW : CuckooPage :=
  { isNew := false, flags := 0
    tuples := [CuckooFormTuple stW 7 (fun _ => 5) (fun _ => false)]
    pdLower := 36 }

/-- An index state whose free list holds page 1, which has room. -/
def stateW : IndexState :=
  { meta :=
      { magicNumber := CUCKOO_MAGIC_NUMBER
        nStart := 0
        nEnd := 1
        opts := stW.opts
        notFullPage := fun _ => 1 }
    pages := [pageRep 1] }

/-- An index state with one live page holding one live (heapPtr 0) and
    one dead (heapPtr 99) tuple. -/
def stateV : IndexState :=
  { meta :=
      { magicNumber := CUCKOO_MAGIC_NUMBER
        nStart := 0
        nEnd := 0
        opts := stW.opts
        notFullPage := fun _ => 0 }
    pages := [{ isNew := false, flags := 0, tuples := [tup0, ⟨99, 1⟩], pdLower := 48 }] }

/-! Theorems. -/

/-- Bit-level fact used for the deleted flag: setting CUCKOO_DELETED
    makes the CuckooPageIsDeleted mask test succeed. -/
theorem or_two_and_two (a : Nat) : (a ||| 2) &&& 2 = 2 := by
  apply Nat.eq_of_testBit_eq
  intro i
  rw [Nat.testBit_and, Nat.testBit_or]
  cases h : Nat.testBit 2 i <;> simp [h]

/-- Claim C2: for all inputs and options with bitsPerTag in [4, 32],
    computeFingerprint returns the per-column XOR / multiply / shift
    accumulator masked to the low bitsPerTag bits via
    tagMask = (1 <<< bitsPerTag) - 1, with a zero result forced to 1,
    and in particular the returned fingerprint is never zero. -/
theorem computeFingerprint_matches_spec (st : CuckooState) (values : Nat → Nat)
    (isnull : Nat → Bool) (hmask : st.tagMask = initTagMask st.opts.bitsPerTag)
    (hlo : 4 ≤ st.opts.bitsPerTag) (hhi : st.opts.bitsPerTag ≤ 32) :
    computeFingerprint st values isnull = fingerprintSpecC2 st values isnull ∧
      computeFingerprint st values isnull ≠ 0 := by
  constructor
  · rw [computeFingerprint, computeHash, hmask]
    rfl
  · rw [computeFingerprint]
    split
    · exact one_ne_zero
    · assumption

/-- Witness for claim C2 at a concrete one-column state and value. -/
theorem computeFingerprint_matches_spec_witness :
    computeFingerprint stW (fun _ => 5) (fun _ => false) =
        fingerprintSpecC2 stW (fun _ => 5) (fun _ => false) ∧
      computeFingerprint stW (fun _ => 5) (fun _ => false) ≠ 0 :=
  computeFingerprint_matches_spec stW (fun _ => 5) (fun _ => false)
    (by decide) (by decide) (by decide)

/-- Claim C8: a freshly initialized empty page always accepts one
    tuple, so the fatal-error branch of the new-page insert path and of
    the build callback is unreachable. -/
theorem addItem_to_fresh_page_succeeds (flags : Nat) (tuple : CuckooTuple) :
    (CuckooPageAddItem (CuckooInitPage flags) tuple).1 = true ∧
      (CuckooPageAddItem (CuckooInitPage flags) tuple).2.tuples = [tuple] := by
  have hfree : ¬ CuckooPageGetFreeSpace (CuckooInitPage flags) < sizeOfCuckooTuple := by
    simp [CuckooPageGetFreeSpace, CuckooInitPage, BLCKSZ, UINT64MOD,
      pageContentsOffset, pageOpaqueSize, sizeOfCuckooTuple, OFFSETMOD]
  rw [CuckooPageAddItem, if_neg hfree]
  simp [CuckooInitPage]

/-- Claim C9: for bitsPerTag in [4, 32] and tagsPerBucket in [2, 8],
    the cost-model false-positive rate is (2 * tagsPerBucket) / 2 ^
    bitsPerTag clamped to [0.0001, 1.0]. -/
theorem calculateFalsePositiveRate_eq_clamp (b t : Nat)
    (hb1 : 4 ≤ b) (hb2 : b ≤ 32) (ht1 : 2 ≤ t) (ht2 : t ≤ 8) :
    calculateFalsePositiveRate b t = fprClampSpec b t := by
  have hden : (0 : ℚ) < 2 ^ b := by positivity
  have htq : (t : ℚ) ≤ 8 := by exact_mod_cast ht2
  have hfpr : (2 * t : ℚ) / 2 ^ b ≤ 1 := by
    rw [div_le_one hden]
    calc (2 * t : ℚ) ≤ 16 := by linarith
    _ = 2 ^ 4 := by norm_num
    _ ≤ 2 ^ b := by
      apply pow_le_pow_right₀ (by norm_num) hb1
  simp only [calculateFalsePositiveRate, fprClampSpec]
  rw [if_neg (not_lt.mpr hfpr), min_eq_right hfpr]
  by_cases hlow : (2 * t : ℚ) / 2 ^ b < 1 / 10000
  · rw [if_pos hlow, max_eq_left (le_of_lt hlow)]
  · rw [if_neg hlow, max_eq_right (not_lt.mp hlow)]

/-- Witness for claim C9 at the default options. -/
theorem calculateFalsePositiveRate_eq_clamp_witness :
    calculateFalsePositiveRate 12 4 = fprClampSpec 12 4 :=
  calculateFalsePositiveRate_eq_clamp 12 4 (by norm_num) (by norm_num)
    (by norm_num) (by norm_num)

/-- Claim C4: CuckooPageAddItem returns false and leaves the page
    (tuple array, live count, pd_lower) unchanged when the free space
    is below one tuple size; otherwise it returns true, appends the
    tuple at offset maxoff + 1 leaving offsets 1..maxoff unchanged,
    increments maxoff by exactly one, and moves pd_lower. -/
theorem addItem_full_or_append (p : CuckooPage) (tuple : CuckooTuple) :
    (CuckooPageGetFreeSpace p < sizeOfCuckooTuple →
      CuckooPageAddItem p tuple = (false, p)) ∧
      (sizeOfCuckooTuple ≤ CuckooPageGetFreeSpace p →
        (CuckooPageAddItem p tuple).1 = true ∧
          (CuckooPageAddItem p tuple).2.tuples = p.tuples ++ [tuple] ∧
          (CuckooPageAddItem p tuple).2.tuples.length = p.tuples.length + 1 ∧
          (CuckooPageAddItem p tuple).2.flags = p.flags ∧
          (CuckooPageAddItem p tuple).2.pdLower =
            pageContentsOffset + sizeOfCuckooTuple * (p.tuples.length + 1)) := by
  constructor
  · intro h
    simp [CuckooPageAddItem, h]
  · intro h
    simp [CuckooPageAddItem, not_lt.mpr h]

/-- Free space of a page holding k tuples (within capacity): no size_t
    wrap occurs and the arithmetic is exact. -/
theorem freeSpace_pageRep (k : Nat) (hk : k ≤ 680) :
    CuckooPageGetFreeSpace (pageRep k) = 8160 - 12 * k := by
  simp only [CuckooPageGetFreeSpace, pageRep, List.length_replicate, BLCKSZ,
    UINT64MOD, pageContentsOffset, pageOpaqueSize, sizeOfCuckooTuple, OFFSETMOD]
  have h1 : k % 65536 = k := Nat.mod_eq_of_lt (by omega)
  rw [h1]
  have h2 : 8192 + 18446744073709551616 - 24 - 8 - 12 * k =
      18446744073709551616 + (8160 - 12 * k) := by omega
  rw [h2, Nat.add_mod_left]
  exact Nat.mod_eq_of_lt (by omega)

/-- Witness for claim C4: a page with 680 tuples is full and is left
    unchanged; appending to a fresh empty page succeeds. -/
theorem addItem_full_or_append_witness :
    CuckooPageAddItem (pageRep 680) tup0 = (false, pageRep 680) ∧
      (CuckooPageAddItem (CuckooInitPage 0) tup0).1 = true :=
  ⟨(addItem_full_or_append (pageRep 680) tup0).1
      (by rw [freeSpace_pageRep 680 (by norm_num)]; norm_num [sizeOfCuckooTuple]),
    ((addItem_full_or_append (CuckooInitPage 0) tup0).2 (by decide)).1⟩

/-- The key loop aborts as soon as any scan key carries SK_ISNULL. -/
theorem processKeys_none_of_null {keys : List ScanKey}
    (h : ∃ k ∈ keys, k.isNull = true) :
    ∀ (v : Nat → Nat) (n : Nat → Bool), processKeys keys v n = none := by
  induction keys with
  | nil =>
    rcases h with ⟨k, hk, _⟩
    cases hk
  | cons k rest ih =>
    intro v n
    by_cases hk : k.isNull = true
    · simp [processKeys, hk]
    · rcases h with ⟨k', hk', hnull⟩
      rcases List.mem_cons.mp hk' with rfl | hmem
      · exact absurd hnull hk
      · simp [processKeys, hk]
        exact ih ⟨k', hmem, hnull⟩ _ _

/-- Claim C3: a scan whose keys include a null key on an indexed
    column returns 0 and adds no row locators to the bitmap. -/
theorem ckgetbitmap_null_key (st : CuckooState) (keys : List ScanKey)
    (pages : List CuckooPage) (h : ∃ k ∈ keys, k.isNull = true) :
    ckgetbitmap st keys pages = ([], 0) := by
  rw [ckgetbitmap, processKeys_none_of_null h]

/-- Witness for claim C3: a single null key over a non-empty page. -/
theorem ckgetbitmap_null_key_witness :
    ckgetbitmap stW [{ isNull := true, attno := 1, argument := 0 }]
      [pageRep 2] = ([], 0) :=
  ckgetbitmap_null_key stW _ _ (by decide)

/-- The compaction loop keeps exactly the tuples the callback reports
    live, in order, and counts the dropped ones. -/
theorem vacuumScan_eq (cb : Nat → Bool) (l : List CuckooTuple) :
    vacuumScan cb l =
      (l.filter (fun t => !cb t.heapPtr), l.countP (fun t => cb t.heapPtr)) := by
  induction l with
  | nil => rfl
  | cons t rest ih =>
    simp only [vacuumScan]
    rw [ih]
    cases h : cb t.heapPtr <;>
      simp [h, List.filter_cons, List.countP_cons]

/-- Claim C5: on a live page, ckbulkdelete keeps exactly the tuples the
    callback reports not-dead, compacted to the front in order; the
    removed count is the number of dropped tuples; if nothing was
    dropped the page mutation is aborted and the page is unchanged; if
    the live count reached zero the page is flagged deleted. -/
theorem ckVacuumPage_spec (cb : Nat → Bool) (p : CuckooPage)
    (hnew : p.isNew = false) (hdel : CuckooPageIsDeleted p = false) :
    (ckVacuumPage cb p).1.tuples = p.tuples.filter (fun t => !cb t.heapPtr) ∧
      (ckVacuumPage cb p).2 = p.tuples.countP (fun t => cb t.heapPtr) ∧
      ((ckVacuumPage cb p).2 = 0 → ckVacuumPage cb p = (p, 0)) ∧
      ((ckVacuumPage cb p).2 ≠ 0 → (ckVacuumPage cb p).1.tuples.length = 0 →
        CuckooPageIsDeleted (ckVacuumPage cb p).1 = true) := by
  have hskip : (p.isNew || CuckooPageIsDeleted p) = false := by
    simp [hnew, hdel]
  by_cases hzero : p.tuples.countP (fun t => cb t.heapPtr) = 0
  · have hfilter : p.tuples.filter (fun t => !cb t.heapPtr) = p.tuples := by
      refine List.filter_eq_self.mpr fun t ht => ?_
      have := List.countP_eq_zero.mp hzero t ht
      simpa using this
    simp [ckVacuumPage, hskip, vacuumScan_eq, hzero, hfilter]
  · simp only [ckVacuumPage, hskip, Bool.false_eq_true, if_false, vacuumScan_eq,
      if_neg hzero]
    refine ⟨trivial, trivial, fun hc => absurd hc hzero, fun _ hlen => ?_⟩
    simp only at hlen
    simp [CuckooPageIsDeleted, hlen, CUCKOO_DELETED, or_two_and_two]

/-- Witness for claim C5: a live page with one dead and one live tuple. -/
theorem ckVacuumPage_spec_witness :
    (ckVacuumPage (fun h => h == 99) (pageRep 1)).1.tuples =
        (pageRep 1).tuples.filter (fun t => !(t.heapPtr == 99)) ∧
      (ckVacuumPage (fun h => h == 99) (pageRep 1)).2 =
        (pageRep 1).tuples.countP (fun t => t.heapPtr == 99) ∧
      ((ckVacuumPage (fun h => h == 99) (pageRep 1)).2 = 0 →
        ckVacuumPage (fun h => h == 99) (pageRep 1) = (pageRep 1, 0)) ∧
      ((ckVacuumPage (fun h => h == 99) (pageRep 1)).2 ≠ 0 →
        (ckVacuumPage (fun h => h == 99) (pageRep 1)).1.tuples.length = 0 →
        CuckooPageIsDeleted (ckVacuumPage (fun h => h == 99) (pageRep 1)).1 = true) :=
  ckVacuumPage_spec (fun h => h == 99) (pageRep 1) (by decide) (by decide)


/-- The mixing fold depends only on the null flags and on the values of
    the non-null columns. -/
theorem foldl_mix_congr (st : CuckooState) (v1 v2 : Nat → Nat) (n1 n2 : Nat → Bool)
    (l : List Nat) (h : ∀ i ∈ l, n1 i = n2 i ∧ (n1 i = false → v1 i = v2 i)) :
    ∀ a : Nat,
      l.foldl (fun acc i => if n1 i then acc else mixRound acc (st.hashFn i (v1 i))) a =
        l.foldl (fun acc i => if n2 i then acc else mixRound acc (st.hashFn i (v2 i))) a := by
  induction l with
  | nil => intro a; simp only [List.foldl_nil]
  | cons i rest ih =>
    intro a
    rcases h i (List.mem_cons_self i rest) with ⟨hn, hv⟩
    have hrest : ∀ j ∈ rest, n1 j = n2 j ∧ (n1 j = false → v1 j = v2 j) :=
      fun j hj => h j (List.mem_cons_of_mem i hj)
    simp only [List.foldl_cons]
    cases hcase : n1 i with
    | true =>
      have h2 : n2 i = true := by rw [← hn]; exact hcase
      rw [if_pos rfl, if_pos h2]
      exact ih hrest a
    | false =>
      have h2 : n2 i = false := by rw [← hn]; exact hcase
      rw [if_neg (by simp), if_neg (by simp [h2]), hv hcase]
      exact ih hrest _

/-- Fingerprint congruence: the fingerprint only reads the null flags
    and the values of the non-null columns. -/
theorem computeFingerprint_congr (st : CuckooState) (v1 v2 : Nat → Nat) (n1 n2 : Nat → Bool)
    (h : ∀ i, i < st.nColumns → n1 i = n2 i ∧ (n1 i = false → v1 i = v2 i)) :
    computeFingerprint st v1 n1 = computeFingerprint st v2 n2 := by
  have hh : computeHash st v1 n1 = computeHash st v2 n2 :=
    foldl_mix_congr st v1 v2 n1 n2 _ (fun i hi => h i (List.mem_range.mp hi)) 0
  rw [computeFingerprint, computeFingerprint, hh]

/-- Helper for the key loop: one update step turns the tail membership
    condition into the cons membership condition. -/
theorem update_if_step {A : Type} (isnull : Nat → Bool) (i : Nat) (hni : isnull i = false)
    (rest : List Nat) (g : Nat → A) (f : Nat → A) (w : Nat → A)
    (hg : ∀ j, g j = if j ∈ rest ∧ isnull j = false then w j else updateAt f i (w i) j) :
    ∀ j, g j = if j ∈ i :: rest ∧ isnull j = false then w j else f j := by
  intro j
  rw [hg j]
  by_cases hc : j ∈ rest ∧ isnull j = false
  · rw [if_pos hc, if_pos ⟨List.mem_cons_of_mem _ hc.1, hc.2⟩]
  · rw [if_neg hc]
    by_cases hji : j = i
    · subst hji
      rw [if_pos ⟨List.mem_cons_self _ _, hni⟩]
      simp [updateAt]
    · have hnc : ¬(j ∈ i :: rest ∧ isnull j = false) := by
        rintro ⟨hmem, hnull⟩
        rcases List.mem_cons.mp hmem with he | hmem'
        · exact hji he
        · exact hc ⟨hmem', hnull⟩
      rw [if_neg hnc]
      simp [updateAt, hji]

/-- Processing the keys built from a list of columns fills exactly the
    non-null listed columns with their values and marks them non-null,
    leaving every other column as it was. -/
theorem processKeys_keysFor_cols (values : Nat → Nat) (isnull : Nat → Bool) :
    ∀ (cols : List Nat) (v : Nat → Nat) (n : Nat → Bool),
      ∃ pr,
        processKeys
            (cols.filterMap fun i =>
              if isnull i then none
              else some { isNull := false, attno := i + 1, argument := values i })
            v n = some pr ∧
          (∀ j, pr.2 j = if j ∈ cols ∧ isnull j = false then false else n j) ∧
          (∀ j, pr.1 j = if j ∈ cols ∧ isnull j = false then values j else v j) := by
  intro cols
  induction cols with
  | nil =>
    intro v n
    exact ⟨(v, n), rfl, fun j => by simp, fun j => by simp⟩
  | cons i rest ih =>
    intro v n
    by_cases hni : isnull i = true
    · obtain ⟨pr, hpk, hn, hv⟩ := ih v n
      have hiff : ∀ j, (j ∈ i :: rest ∧ isnull j = false) ↔ (j ∈ rest ∧ isnull j = false) := by
        intro j
        constructor
        · rintro ⟨hmem, hnull⟩
          rcases List.mem_cons.mp hmem with he | hmem'
          · rw [he, hni] at hnull
            cases hnull
          · exact ⟨hmem', hnull⟩
        · rintro ⟨hmem, hnull⟩
          exact ⟨List.mem_cons_of_mem _ hmem, hnull⟩
      refine ⟨pr, ?_, fun j => ?_, fun j => ?_⟩
      · simpa [List.filterMap_cons, hni] using hpk
      · rw [hn j, if_congr (hiff j) rfl rfl]
      · rw [hv j, if_congr (hiff j) rfl rfl]
    · have hni' : isnull i = false := by simpa using hni
      obtain ⟨pr, hpk, hn, hv⟩ := ih (updateAt v i (values i)) (updateAt n i false)
      refine ⟨pr, ?_, ?_, ?_⟩
      · simpa [List.filterMap_cons, hni', processKeys] using hpk
      · exact update_if_step isnull i hni' rest pr.2 n (fun _ => false) hn
      · exact update_if_step isnull i hni' rest pr.1 v values hv

/-- The returned match count equals the number of emitted locators. -/
theorem scanPages_count (fp : Nat) (pages : List CuckooPage) :
    (scanPages fp pages).2 = (scanPages fp pages).1.length := by
  induction pages with
  | nil => rfl
  | cons p rest ih => simp [scanPages, ih]

/-- A matching tuple on a live page is emitted by the page walk. -/
theorem scanPages_mem (fp : Nat) (pages : List CuckooPage) (p : CuckooPage)
    (t : CuckooTuple) (hp : p ∈ pages)
    (hlive : (p.isNew || CuckooPageIsDeleted p) = false)
    (ht : t ∈ p.tuples) (hfp : t.fingerprint = fp) :
    t.heapPtr ∈ (scanPages fp pages).1 := by
  induction pages with
  | nil => cases hp
  | cons q rest ih =>
    rcases List.mem_cons.mp hp with he | hmem
    · subst he
      simp only [scanPages, hlive, Bool.false_eq_true, if_false]
      exact List.mem_append_left _
        (List.mem_map.mpr ⟨t, List.mem_filter.mpr ⟨ht, by simp [hfp]⟩, rfl⟩)
    · simp only [scanPages]
      exact List.mem_append_right _ (ih hmem)

/-- Claim C1 (no false negatives): a stored tuple formed from given
    column values that sits on a live page is always emitted, and
    counted, by a scan supplying the same non-null column values. -/
theorem ckgetbitmap_no_false_negative (st : CuckooState) (values : Nat → Nat)
    (isnull : Nat → Bool) (iptr : Nat) (p : CuckooPage) (pages : List CuckooPage)
    (hp : p ∈ pages) (hnew : p.isNew = false) (hdel : CuckooPageIsDeleted p = false)
    (ht : CuckooFormTuple st iptr values isnull ∈ p.tuples) :
    iptr ∈ (ckgetbitmap st (keysFor st.nColumns values isnull) pages).1 ∧
      1 ≤ (ckgetbitmap st (keysFor st.nColumns values isnull) pages).2 := by
  obtain ⟨pr, hpk, hn, hv⟩ :=
    processKeys_keysFor_cols values isnull (List.range st.nColumns) (fun _ => 0) (fun _ => true)
  have hnull_eq : ∀ i, i < st.nColumns → pr.2 i = isnull i := by
    intro i hi
    rw [hn i]
    by_cases hni : isnull i = true
    · rw [if_neg (by rintro ⟨_, hc⟩; rw [hni] at hc; cases hc), hni]
    · have hni' : isnull i = false := by simpa using hni
      rw [if_pos ⟨List.mem_range.mpr hi, hni'⟩, hni']
  have hfpeq : computeFingerprint st pr.1 pr.2 = computeFingerprint st values isnull := by
    apply computeFingerprint_congr
    intro i hi
    refine ⟨hnull_eq i hi, fun hfalse => ?_⟩
    have hni' : isnull i = false := by rw [← hnull_eq i hi]; exact hfalse
    rw [hv i, if_pos ⟨List.mem_range.mpr hi, hni'⟩]
  have hbm : ckgetbitmap st (keysFor st.nColumns values isnull) pages =
      scanPages (computeFingerprint st pr.1 pr.2) pages := by
    rw [ckgetbitmap,
      show processKeys (keysFor st.nColumns values isnull) (fun _ => 0) (fun _ => true) =
        some pr from hpk]
  have hmem : (CuckooFormTuple st iptr values isnull).heapPtr ∈
      (scanPages (computeFingerprint st pr.1 pr.2) pages).1 := by
    apply scanPages_mem _ _ p _ hp (by simp [hnew, hdel]) ht
    rw [hfpeq]
    rfl
  constructor
  · rw [hbm]
    exact hmem
  · rw [hbm, scanPages_count]
    exact List.length_pos_of_mem hmem

/-- Witness for claim C1: one row with value 5 inserted and scanned. -/
theorem ckgetbitmap_no_false_negative_witness :
    7 ∈ (ckgetbitmap stW (keysFor stW.nColumns (fun _ => 5) (fun _ => false)) [pageW]).1 ∧
      1 ≤ (ckgetbitmap stW (keysFor stW.nColumns (fun _ => 5) (fun _ => false)) [pageW]).2 :=
  ckgetbitmap_no_false_negative stW (fun _ => 5) (fun _ => false) 7 pageW [pageW]
    (by simp) (by decide) (by decide) (by simp [pageW])

/-- With every column null the mixing fold is skipped entirely. -/
theorem computeHash_allnull (st : CuckooState) (values : Nat → Nat) (isnull : Nat → Bool)
    (h : ∀ i, i < st.nColumns → isnull i = true) :
    computeHash st values isnull = 0 := by
  rw [computeHash]
  have hgen : ∀ (l : List Nat) (a : Nat), (∀ i ∈ l, isnull i = true) →
      l.foldl (fun acc i => if isnull i then acc else mixRound acc (st.hashFn i (values i))) a
        = a := by
    intro l
    induction l with
    | nil => intro a _; rfl
    | cons i rest ih =>
      intro a hall
      rw [List.foldl_cons, if_pos (hall i (List.mem_cons_self i rest))]
      exact ih a fun j hj => hall j (List.mem_cons_of_mem i hj)
  exact hgen _ 0 fun i hi => h i (List.mem_range.mp hi)

/-- With every column null the fingerprint is exactly 1. -/
theorem computeFingerprint_allnull (st : CuckooState) (values : Nat → Nat)
    (isnull : Nat → Bool) (h : ∀ i, i < st.nColumns → isnull i = true) :
    computeFingerprint st values isnull = 1 := by
  rw [computeFingerprint, computeHash_allnull st values isnull h]
  simp [Nat.zero_and]

/-- The page walk at fingerprint 1 emits exactly the keyless-scan
    specification list. -/
theorem scanPages_spec_one (pages : List CuckooPage) :
    (scanPages 1 pages).1 = keylessScanSpec pages := by
  induction pages with
  | nil => rfl
  | cons p rest ih =>
    cases hlive : (p.isNew || CuckooPageIsDeleted p) with
    | true =>
      have hflt : (!p.isNew && !CuckooPageIsDeleted p) = false := by
        cases hn : p.isNew <;> cases hd : CuckooPageIsDeleted p <;> simp_all
      simp [scanPages, keylessScanSpec, hlive, List.filter_cons, hflt, ih]
    | false =>
      have hflt : (!p.isNew && !CuckooPageIsDeleted p) = true := by
        cases hn : p.isNew <;> cases hd : CuckooPageIsDeleted p <;> simp_all
      simp [scanPages, keylessScanSpec, hlive, List.filter_cons, hflt, ih]

/-- Claim C10: with all indexed columns null the fingerprint is exactly
    1; a keyless scan (all columns initialized null) therefore matches
    precisely the stored tuples whose fingerprint is 1, and returns
    their number. -/
theorem keyless_scan_matches_fingerprint_one (st : CuckooState) (values : Nat → Nat)
    (isnull : Nat → Bool) (pages : List CuckooPage)
    (h : ∀ i, i < st.nColumns → isnull i = true) :
    computeFingerprint st values isnull = 1 ∧
      (ckgetbitmap st [] pages).1 = keylessScanSpec pages ∧
      (ckgetbitmap st [] pages).2 = (keylessScanSpec pages).length := by
  have h2 : ckgetbitmap st [] pages = scanPages 1 pages := by
    rw [ckgetbitmap]
    show scanPages (computeFingerprint st (fun _ => 0) (fun _ => true)) pages = _
    rw [computeFingerprint_allnull st _ _ (fun i _ => rfl)]
  refine ⟨computeFingerprint_allnull st values isnull h, ?_, ?_⟩
  · rw [h2, scanPages_spec_one]
  · rw [h2, scanPages_count, scanPages_spec_one]

/-- Witness for claim C10 over one live page holding the all-null
    fingerprint twice. -/
theorem keyless_scan_matches_fingerprint_one_witness :
    computeFingerprint stW (fun _ => 0) (fun _ => true) = 1 ∧
      (ckgetbitmap stW [] [pageRep 2]).1 = keylessScanSpec [pageRep 2] ∧
      (ckgetbitmap stW [] [pageRep 2]).2 = (keylessScanSpec [pageRep 2]).length :=
  keyless_scan_matches_fingerprint_one stW (fun _ => 0) (fun _ => true) [pageRep 2]
    (by decide)

/-- Claim C7: when the first free-list entry's page accepts the tuple
    (the fast path), ckinsert completes without mutating the metapage:
    nStart, nEnd, the notFullPage array and the option record are all
    unchanged. -/
theorem ckinsert_fast_path_meta_unchanged (st : CuckooState) (values : Nat → Nat)
    (isnull : Nat → Bool) (iptr : Nat) (s : IndexState)
    (hne : s.meta.nStart < s.meta.nEnd)
    (hacc : (CuckooPageAddItem
        (reinitIfNeeded (pageAt s (s.meta.notFullPage s.meta.nStart)))
        (CuckooFormTuple st iptr values isnull)).1 = true) :
    (ckinsertStep st values isnull iptr s).meta = s.meta := by
  simp only [ckinsertStep]
  rw [if_pos hne, hacc, if_pos rfl]
  rfl

/-- Witness for claim C7: a fast-path insert into stateW. -/
theorem ckinsert_fast_path_meta_unchanged_witness :
    (ckinsertStep stW (fun _ => 5) (fun _ => false) 9 stateW).meta = stateW.meta :=
  ckinsert_fast_path_meta_unchanged stW (fun _ => 5) (fun _ => false) 9 stateW
    (by decide) (by decide)

/-- Reading inside the bounds of a list yields a member. -/
theorem getD_mem_of_lt {A : Type} (l : List A) (i : Nat) (d : A) (h : i < l.length) :
    l.getD i d ∈ l := by
  induction l generalizing i with
  | nil => cases h
  | cons a rest ih =>
    cases i with
    | zero =>
      rw [List.getD_cons_zero]
      exact List.mem_cons_self _ _
    | succ n =>
      rw [List.getD_cons_succ]
      exact List.mem_cons_of_mem _ (ih _ (by simpa using h))

/-- Every block recorded by the bulk-delete page walk (beyond the
    accumulator it started with) addresses a vacuumed page that ended
    with at least one tuple of free space. -/
theorem vacuumWalk_collected (cb : Nat → Bool) :
    ∀ (ps : List CuckooPage) (b : Nat) (acc : List Nat) (x : Nat),
      x ∈ (vacuumWalk cb ps b acc).2.2 →
        x ∈ acc ∨ ∃ j, j < ps.length ∧ x = b + j ∧
          sizeOfCuckooTuple ≤
            CuckooPageGetFreeSpace ((vacuumWalk cb ps b acc).1.getD j zeroPage) := by
  intro ps
  induction ps with
  | nil => intro b acc x hx; exact Or.inl hx
  | cons p rest ih =>
    intro b acc x hx
    by_cases hskip : (p.isNew || CuckooPageIsDeleted p) = true
    · simp only [vacuumWalk, hskip, if_true] at hx ⊢
      rcases ih (b + 1) acc x hx with hin | ⟨j, hj, hxeq, hfree⟩
      · exact Or.inl hin
      · refine Or.inr ⟨j + 1, ?_, by omega, ?_⟩
        · simp only [List.length_cons]
          omega
        · rw [List.getD_cons_succ]
          exact hfree
    · have hskip' : (p.isNew || CuckooPageIsDeleted p) = false := by
        simpa using hskip
      by_cases hC : (ckVacuumPage cb p).1.tuples.length ≠ 0 ∧
          sizeOfCuckooTuple ≤ CuckooPageGetFreeSpace (ckVacuumPage cb p).1 ∧
          acc.length < CuckooMetaBlockN
      · simp only [vacuumWalk, hskip', Bool.false_eq_true, if_false, if_pos hC] at hx ⊢
        rcases ih (b + 1) (acc ++ [b]) x hx with hin | ⟨j, hj, hxeq, hfree⟩
        · rcases List.mem_append.mp hin with hl | hr
          · exact Or.inl hl
          · have hxb : x = b := by simpa using hr
            refine Or.inr ⟨0, by simp, by omega, ?_⟩
            rw [List.getD_cons_zero]
            exact hC.2.1
        · refine Or.inr ⟨j + 1, ?_, by omega, ?_⟩
          · simp only [List.length_cons]
            omega
          · rw [List.getD_cons_succ]
            exact hfree
      · simp only [vacuumWalk, hskip', Bool.false_eq_true, if_false, if_neg hC] at hx ⊢
        rcases ih (b + 1) acc x hx with hin | ⟨j, hj, hxeq, hfree⟩
        · exact Or.inl hin
        · refine Or.inr ⟨j + 1, ?_, by omega, ?_⟩
          · simp only [List.length_cons]
            omega
          · rw [List.getD_cons_succ]
            exact hfree

/-- Claim C6, amended: immediately after a ckbulkdelete, every
    free-list entry between nStart and nEnd references a page with at
    least one tuple of free space.  (The unamended claim, over all
    states reachable by inserts and bulk deletes, is refuted by
    freelist_invariant_counterexample: an insert can fill the page the
    free list still references.) -/
theorem freelist_entries_have_space_after_bulkdelete (cb : Nat → Bool) (s : IndexState)
    (i : Nat) (h1 : ((ckbulkdeleteStep cb s).1).meta.nStart ≤ i)
    (h2 : i < ((ckbulkdeleteStep cb s).1).meta.nEnd) :
    sizeOfCuckooTuple ≤ CuckooPageGetFreeSpace
      (pageAt (ckbulkdeleteStep cb s).1 ((ckbulkdeleteStep cb s).1.meta.notFullPage i)) := by
  simp only [ckbulkdeleteStep] at h2 ⊢
  rw [if_pos h2]
  have hmem : (vacuumWalk cb s.pages 1 []).2.2.getD i 0 ∈ (vacuumWalk cb s.pages 1 []).2.2 :=
    getD_mem_of_lt _ _ _ h2
  rcases vacuumWalk_collected cb s.pages 1 [] _ hmem with hin | ⟨j, hj, hxeq, hfree⟩
  · cases hin
  · simp only [pageAt]
    rw [hxeq, show 1 + j - 1 = j by omega]
    exact hfree

/-- Witness for the amended claim C6: one bulk delete over stateV. -/
theorem freelist_entries_have_space_after_bulkdelete_witness :
    sizeOfCuckooTuple ≤ CuckooPageGetFreeSpace
      (pageAt (ckbulkdeleteStep (fun h => h == 99) stateV).1
        ((ckbulkdeleteStep (fun h => h == 99) stateV).1.meta.notFullPage 0)) :=
  freelist_entries_have_space_after_bulkdelete (fun h => h == 99) stateV 0
    (by decide) (by decide)

/-- The first all-null insert into the freshly built index takes the
    new-page path and creates page 1 with one tuple, resetting the ring
    buffer to contain exactly page 1. -/
theorem insertN_one : insertN 1 = { meta := meta1, pages := [pageRep 1] } := rfl

/-- A further all-null insert into a state whose single page is not yet
    full takes the fast path: the metapage is untouched and the page
    gains one tuple. -/
theorem insertN_step (k : Nat) (hk2 : k ≤ 679) :
    ckinsertStep st0 (fun _ => 0) (fun _ => true) 0 { meta := meta1, pages := [pageRep k] } =
      { meta := meta1, pages := [pageRep (k + 1)] } := by
  have hfree : ¬ CuckooPageGetFreeSpace (pageRep k) < sizeOfCuckooTuple := by
    rw [freeSpace_pageRep k (by omega)]
    simp only [sizeOfCuckooTuple]
    omega
  have hreinit : reinitIfNeeded (pageRep k) = pageRep k := by
    rw [reinitIfNeeded]
    rw [if_neg (by simp [pageRep, CuckooPageIsDeleted, CUCKOO_DELETED])]
  have haddeq : CuckooPageAddItem (pageRep k) tup0 =
      (true,
        { pageRep k with
          tuples := (pageRep k).tuples ++ [tup0]
          pdLower := pageContentsOffset + sizeOfCuckooTuple * ((pageRep k).tuples.length + 1) }) := by
    rw [CuckooPageAddItem, if_neg hfree]
  simp only [ckinsertStep]
  rw [show CuckooFormTuple st0 0 (fun _ => 0) (fun _ => true) = tup0 from rfl]
  rw [if_pos (show meta1.nStart < meta1.nEnd by decide)]
  rw [show meta1.notFullPage meta1.nStart = 1 from rfl]
  rw [show pageAt { meta := meta1, pages := [pageRep k] } 1 = pageRep k from rfl]
  rw [hreinit, haddeq]
  simp [setPageAt, meta1, pageRep, List.replicate_succ', List.length_replicate]

/-- The state after k all-null inserts, for k between 1 and the page
    capacity 680. -/
theorem insertN_eq (k : Nat) (hk1 : 1 ≤ k) (hk2 : k ≤ 680) :
    insertN k = { meta := meta1, pages := [pageRep k] } := by
  induction k with
  | zero => omega
  | succ n ih =>
    by_cases hn : n = 0
    · subst hn
      exact insertN_one
    · show ckinsertStep st0 (fun _ => 0) (fun _ => true) 0 (insertN n) = _
      rw [ih (by omega) (by omega), insertN_step n (by omega)]

/-- Every state of the all-null insert trace is reachable. -/
theorem insertN_reachable (k : Nat) : Reachable st0 (insertN k) := by
  induction k with
  | zero => exact Reachable.init
  | succ n ih => exact Reachable.insert _ _ _ ih

/-- Claim C6 counterexample: after 680 inserts the single data page is
    completely full (680 tuples of 12 bytes exhaust the 8160 bytes of
    tuple space) while the metapage free list, untouched by the
    fast-path inserts, still references it; so the free-list invariant
    does not hold in every reachable state. -/
theorem freelist_invariant_counterexample :
    Reachable st0 badState680 ∧ ¬ FreeListInv badState680 := by
  constructor
  · exact insertN_reachable 680
  · intro hinv
    have hbad : badState680 = { meta := meta1, pages := [pageRep 680] } :=
      insertN_eq 680 (by norm_num) (by norm_num)
    rw [hbad] at hinv
    have h := hinv 0 (Nat.le_refl 0) Nat.zero_lt_one
    have h2 : sizeOfCuckooTuple ≤ CuckooPageGetFreeSpace (pageRep 680) := h
    rw [freeSpace_pageRep 680 (by norm_num)] at h2
    simp only [sizeOfCuckooTuple] at h2
    omega
